import Mathlib

/-!
Verification of the partition-planning and provisioning logic of
`covert_sd_card_tool.py`.

The Python source is shallowly embedded as follows:
* Python `float` size arithmetic is modelled over `ℚ`; every value the
  claims exercise is exactly representable, and the source only adds,
  multiplies by 1024, subtracts 1024 and compares, all of which are exact
  on those values.
* `sys.exit(1)` is modelled as an aborted run (`ok = false` in a
  `RunState`, or `Option`/`Except` failure for pure helpers).
* Every `run_command` invocation is recorded as an `Action` in a trace;
  `run_command` exits the process on a non-zero status, modelled by an
  `exec : Action → Bool` oracle deciding each command's success.
  `subprocess.run` geometry queries (total size, end of partition 1,
  the partition-name listing) never abort and their results are passed
  in as parameters (`total`, `bootEnd`, `listing`).
* `input()` strings for sizes are modelled by `SizeInput`
  (blank / parses as a number / raises `ValueError` in `float`).
* `os.path.exists` is the oracle `pathExists : String → Bool`.
-/

namespace CovertSd

/-- Character-list prefix test, modelling Python `str.startswith`. -/
def isPrefixListChar : List Char → List Char → Bool
  | [], _ => true
  | _ :: _, [] => false
  | a :: as, b :: bs => a == b && isPrefixListChar as bs

/-- Character-list substring test, modelling the Python `in` operator on
strings. -/
def containsListChar (pat : List Char) : List Char → Bool
  | [] => isPrefixListChar pat []
  | c :: rest => isPrefixListChar pat (c :: rest) || containsListChar pat rest

/-- Python `pat in hay` for strings. -/
def strContains (hay pat : String) : Bool :=
  containsListChar pat.data hay.data

/-- Fuel-driven worker for `pyStripAll`: removes leftmost non-overlapping
occurrences of `pat`. The fuel is the length of the text, which bounds the
number of steps. -/
def removeFuel (pat : List Char) : Nat → List Char → List Char
  | 0, s => s
  | _ + 1, [] => []
  | fuel + 1, c :: rest =>
    if isPrefixListChar pat (c :: rest) && !pat.isEmpty then
      removeFuel pat fuel (List.drop (pat.length - 1) rest)
    else
      c :: removeFuel pat fuel rest

/-- Python `s.replace(pat, "")`: delete every non-overlapping occurrence of
`pat` in `s`, scanning left to right. -/
def pyStripAll (s pat : String) : String :=
  ⟨removeFuel pat.data s.data.length s.data⟩

/-- Python `str.isdigit` restricted to ASCII content: non-empty and all
decimal digits. -/
def pyIsDigit (s : String) : Bool :=
  !s.data.isEmpty && s.data.all Char.isDigit

/-- Numeric value of a digit string, modelling Python `int` on a digit-only
string (48 is the code of the character zero). -/
def digitsVal (l : List Char) : Nat :=
  l.foldl (fun acc c => acc * 10 + (c.toNat - 48)) 0

/-- Python `os.path.basename`: the part of the path after the last slash. -/
def basename (s : String) : String :=
  ⟨(s.data.reverse.takeWhile (fun c => c != '/')).reverse⟩

/-- Embedding of `get_partition_name` (source lines 79–83): join the index
with a `p` exactly when the drive path contains `nvme` or `mmcblk`. -/
def get_partition_name (drive : String) (partitionNumber : Int) : String :=
  if strContains drive "nvme" || strContains drive "mmcblk" then
    drive ++ "p" ++ toString partitionNumber
  else
    drive ++ toString partitionNumber

/-- One iteration of the scanning loop of `get_last_partition_number`
(source lines 484–496): the partition number extracted from one listed
name, if any. -/
def partition_number_of (base : String) (part : String) : Option Int :=
  if part.data.contains 'p' then
    if isPrefixListChar base.data part.data then
      let num := pyStripAll (pyStripAll part base) "p"
      if pyIsDigit num then some (Int.ofNat (digitsVal num.data)) else none
    else none
  else
    if isPrefixListChar base.data part.data then
      let num := pyStripAll part base
      if pyIsDigit num then some (Int.ofNat (digitsVal num.data)) else none
    else none

/-- Embedding of `get_last_partition_number` (source lines 479–500).
`listing` is the `lsblk -ln -o NAME` output, one name per line. A `none`
result models the fatal `sys.exit(1)` taken when no partition number was
collected. -/
def get_last_partition_number (drive : String) (listing : List String) :
    Option Int :=
  let nums := listing.filterMap (partition_number_of (basename drive))
  match nums with
  | [] => none
  | n :: rest => some (rest.foldl max n)

/-- A user answer to one of the size prompts: left blank, a string `float`
accepts (with its value), or a string on which `float` raises
`ValueError`. -/
inductive SizeInput
  | blank
  | num (q : ℚ)
  | nonNumeric
deriving DecidableEq

/-- The persistence-size prompt (source line 246) defaults a blank answer
to the string `"4"` before parsing. -/
def parsePersSize : SizeInput → Option ℚ
  | SizeInput.blank => some 4
  | SizeInput.num q => some q
  | SizeInput.nonNumeric => none

/-- A planned partition extent in MiB. -/
structure Extent where
  start : ℚ
  stop : ℚ
deriving DecidableEq

/-- The distinct `sys.exit(1)` sites of the size/feasibility validation in
`fix_partition_table`. -/
inductive PlanError
  | invalidPersistenceSize
  | persistenceExceedsSpace
  | invalidDocsSize
  | docsExceedsSpace
deriving DecidableEq

/-- The layout computation of `fix_partition_table` (source lines 246–286):
persistence starts at the end of partition 1; documents start at the end of
persistence; the final unencrypted tools partition runs from the end of
documents to `100%`, i.e. to `total`. Only two feasibility checks exist in
the source: `end_persistence_mib > total_size_mib` and, when a documents
size was entered, `end_docs_mib > total_size_mib - 1024`. -/
def fix_partition_table_plan (total bootEnd : ℚ)
    (persIn docsIn : SizeInput) : Except PlanError (List Extent) :=
  match parsePersSize persIn with
  | none => Except.error PlanError.invalidPersistenceSize
  | some persGb =>
    let startPers := bootEnd
    let endPers := startPers + persGb * 1024
    if endPers > total then Except.error PlanError.persistenceExceedsSpace
    else
      let startDocs := endPers
      match docsIn with
      | SizeInput.nonNumeric => Except.error PlanError.invalidDocsSize
      | SizeInput.num docsGb =>
        let endDocs := startDocs + docsGb * 1024
        if endDocs > total - 1024 then Except.error PlanError.docsExceedsSpace
        else Except.ok [⟨startPers, endPers⟩, ⟨startDocs, endDocs⟩,
                        ⟨endDocs, total⟩]
      | SizeInput.blank =>
        let endDocs := total - 1024
        Except.ok [⟨startPers, endPers⟩, ⟨startDocs, endDocs⟩,
                   ⟨endDocs, total⟩]

/-- Consecutive extents are chained: each start equals the previous end. -/
def extentsAdjacent : List Extent → Bool
  | [] => true
  | [_] => true
  | a :: b :: rest => decide (a.stop = b.start) && extentsAdjacent (b :: rest)

/-- Well-formedness of a plan: every extent is non-degenerate
(start strictly below end), no end exceeds the device size, and the
extents are chained. -/
def planWellFormed (l : List Extent) (total : ℚ) : Bool :=
  l.all (fun e => decide (e.start < e.stop) && decide (e.stop ≤ total)) &&
    extentsAdjacent l

/-- Deciding equality of planner results, so concrete plans can be checked
by `decide`. -/
instance {ε α : Type} [DecidableEq ε] [DecidableEq α] :
    DecidableEq (Except ε α) :=
  fun a b =>
    match a, b with
    | Except.ok x, Except.ok y =>
      if h : x = y then isTrue (by rw [h])
      else isFalse (by intro hc; cases hc; exact h rfl)
    | Except.error x, Except.error y =>
      if h : x = y then isTrue (by rw [h])
      else isFalse (by intro hc; cases hc; exact h rfl)
    | Except.ok _, Except.error _ => isFalse (by intro hc; cases hc)
    | Except.error _, Except.ok _ => isFalse (by intro hc; cases hc)

/-- One external command issued through `run_command`. Each constructor
corresponds to one `run_command` call site of the source; arguments record
the data interpolated into the command string. -/
inductive Action
  | partedRm2
  | mkpart (startMiB endMiB : ℚ)
  | mkpartToEnd (startMiB : ℚ)
  | partprobe
  | udevadmSettle
  | wipefs (part : String)
  | luksFormat (part : String) (fast : Bool)
  | luksOpen (part : String)
  | mkfsPersistence (fast : Bool)
  | mkdirP (path : String)
  | mountCmd (src dst : String)
  | teeFile (content path : String)
  | umountCmd (path : String)
  | luksClose
  | veracryptCreate (part : String) (fast : Bool)
  | mkfsVfat (part : String)
  | cpReadme
  | rmTmpReadme
  | cpMountScript
  | chmodMountScript
  | rmTmpMountScript
  | cpCleanupScript
  | chmodCleanupScript
  | rmTmpCleanupScript
deriving DecidableEq

/-- Partition-table mutations that create a region. -/
def isTableCreation : Action → Bool
  | Action.mkpart _ _ => true
  | Action.mkpartToEnd _ => true
  | _ => false

/-- Partition-table mutations (delete or create). -/
def isTableMutation : Action → Bool
  | Action.partedRm2 => true
  | a => isTableCreation a

/-- One step of the embedded control flow: a `run_command` call that exits
the process on failure; the one `run_command` call wrapped in
`try/except SystemExit` (the stale partition-2 delete, source lines
219–223), whose failure is swallowed; or an in-process control point
(`sys.exit(1)` validation and `os.path.exists` checks), which runs no
external command. -/
inductive Step
  | cmd (a : Action)
  | tryCmd (a : Action)
  | guard (pass : Bool)
deriving DecidableEq

/-- State of a run: the external commands attempted so far, and whether
the process is still alive (`ok = false` models `sys.exit(1)`). -/
structure RunState where
  trace : List Action
  ok : Bool
deriving DecidableEq

/-- Execute one step. A dead run stays dead and attempts nothing. -/
def stepRun (exec : Action → Bool) (s : RunState) : Step → RunState
  | Step.cmd a => if s.ok then ⟨s.trace ++ [a], exec a⟩ else s
  | Step.tryCmd a => if s.ok then ⟨s.trace ++ [a], true⟩ else s
  | Step.guard pass => if s.ok then ⟨s.trace, pass⟩ else s

/-- Execute a list of steps from a given state. -/
def runStepsFrom (exec : Action → Bool) (s : RunState) (steps : List Step) :
    RunState :=
  steps.foldl (stepRun exec) s

/-- Execute a list of steps from the initial (alive, empty-trace) state. -/
def runSteps (exec : Action → Bool) (steps : List Step) : RunState :=
  runStepsFrom exec ⟨[], true⟩ steps

/-- The actions a list of steps would attempt if nothing failed. -/
def actionsOf : List Step → List Action
  | [] => []
  | Step.cmd a :: rest => a :: actionsOf rest
  | Step.tryCmd a :: rest => a :: actionsOf rest
  | Step.guard _ :: rest => actionsOf rest

/-- Embedding of `setup_kali_partition` (source lines 318–357) as its
sequence of external commands. The source performs no `os.path.exists`
check in this function, so the `pathExists` oracle is never consulted:
`wipefs` is issued against the resolved partition unconditionally. -/
def setup_kali_partition_steps (fast : Bool) (part : String)
    (_pathExists : String → Bool) : List Step :=
  [Step.cmd (Action.wipefs part),
   Step.cmd (Action.luksFormat part fast),
   Step.cmd (Action.luksOpen part),
   Step.cmd (Action.mkfsPersistence fast),
   Step.cmd (Action.mkdirP "/mnt/kali_USB"),
   Step.cmd (Action.mountCmd "/dev/mapper/kali_USB" "/mnt/kali_USB"),
   Step.cmd (Action.teeFile "/ union" "/mnt/kali_USB/persistence.conf"),
   Step.cmd (Action.umountCmd "/mnt/kali_USB"),
   Step.cmd Action.luksClose]

/-- Embedding of `setup_docs_partition` (source lines 359–391): existence
check of the resolved partition first (fatal on absence), then `wipefs`,
then the interactive VeraCrypt container creation. -/
def setup_docs_partition_steps (fast : Bool) (part : String)
    (pathExists : String → Bool) : List Step :=
  [Step.guard (pathExists part),
   Step.cmd (Action.wipefs part),
   Step.cmd (Action.veracryptCreate part fast)]

/-- Embedding of `setup_unencrypted_partition` (source lines 393–477):
existence check, FAT32 format, mount, the three artifact copies with their
auxiliary commands, and the final unmount. The writes to `/tmp` via Python
`open` are in-process and issue no external command. -/
def setup_unencrypted_partition_steps (part : String)
    (pathExists : String → Bool) : List Step :=
  [Step.guard (pathExists part),
   Step.cmd (Action.mkfsVfat part),
   Step.cmd (Action.mkdirP "/mnt/unencrypted"),
   Step.cmd (Action.mountCmd part "/mnt/unencrypted"),
   Step.cmd Action.cpReadme,
   Step.cmd Action.rmTmpReadme,
   Step.cmd Action.cpMountScript,
   Step.cmd Action.chmodMountScript,
   Step.cmd Action.rmTmpMountScript,
   Step.cmd Action.cpCleanupScript,
   Step.cmd Action.chmodCleanupScript,
   Step.cmd Action.rmTmpCleanupScript,
   Step.cmd (Action.umountCmd "/mnt/unencrypted")]

/-- The tail of `fix_partition_table` once both remaining extents are
known (source lines 280–296): create the documents and tools partitions,
re-probe, then run the provisioners — `setup_kali_partition` on partition
2, `setup_docs_partition` (only when documents were requested) on the
next-to-last partition, `setup_unencrypted_partition` on the last.
A missing partition listing makes `get_last_partition_number` exit. -/
def fix_partition_table_tail (drive : String) (startDocs endDocs : ℚ)
    (createDocs fast : Bool) (listing : List String)
    (pathExists : String → Bool) : List Step :=
  [Step.cmd (Action.mkpart startDocs endDocs),
   Step.cmd (Action.mkpartToEnd endDocs),
   Step.cmd Action.partprobe,
   Step.cmd Action.udevadmSettle] ++
  setup_kali_partition_steps fast (get_partition_name drive 2) pathExists ++
  (if createDocs then
    match get_last_partition_number drive listing with
    | none => [Step.guard false]
    | some n =>
      setup_docs_partition_steps fast (get_partition_name drive (n - 1))
        pathExists
  else []) ++
  (match get_last_partition_number drive listing with
  | none => [Step.guard false]
  | some n =>
    setup_unencrypted_partition_steps (get_partition_name drive n) pathExists)

/-- The steps of `fix_partition_table` after the initial stale-delete
attempt (source lines 226–296). `bootEnd = none` models the parted print
output containing no row for partition 1 (fatal). Validation `sys.exit`
sites become failing guards; note the persistence partition is created
before the documents size is even prompted for. -/
def fix_partition_table_rest (drive : String) (total : ℚ)
    (bootEnd : Option ℚ) (persIn docsIn : SizeInput)
    (createDocs fast : Bool) (listing : List String)
    (pathExists : String → Bool) : List Step :=
  match bootEnd with
  | none => [Step.guard false]
  | some endOfP1 =>
    match parsePersSize persIn with
    | none => [Step.guard false]
    | some persGb =>
      let endPers := endOfP1 + persGb * 1024
      if endPers > total then [Step.guard false]
      else
        Step.cmd (Action.mkpart endOfP1 endPers) ::
        match docsIn with
        | SizeInput.nonNumeric => [Step.guard false]
        | SizeInput.num docsGb =>
          let endDocs := endPers + docsGb * 1024
          if endDocs > total - 1024 then [Step.guard false]
          else
            fix_partition_table_tail drive endPers endDocs createDocs fast
              listing pathExists
        | SizeInput.blank =>
          fix_partition_table_tail drive endPers (total - 1024) createDocs
            fast listing pathExists

/-- All steps of `fix_partition_table` (source lines 215–296): the
`try`-wrapped delete of stale partition 2 comes first, before any size is
read or validated. -/
def fix_partition_table_steps (drive : String) (total : ℚ)
    (bootEnd : Option ℚ) (persIn docsIn : SizeInput)
    (createDocs fast : Bool) (listing : List String)
    (pathExists : String → Bool) : List Step :=
  Step.tryCmd Action.partedRm2 ::
    fix_partition_table_rest drive total bootEnd persIn docsIn createDocs
      fast listing pathExists

/-- A complete run of `fix_partition_table` under the `exec` outcome
oracle. -/
def fix_partition_table_run (exec : Action → Bool) (drive : String)
    (total : ℚ) (bootEnd : Option ℚ) (persIn docsIn : SizeInput)
    (createDocs fast : Bool) (listing : List String)
    (pathExists : String → Bool) : RunState :=
  runSteps exec
    (fix_partition_table_steps drive total bootEnd persIn docsIn createDocs
      fast listing pathExists)

/-- The CLI mode flags of `main` (source lines 506–514). -/
structure Args where
  all : Bool
  kali : Bool
  docs : Bool
  tails : Bool
deriving DecidableEq

/-- Mode resolution of `main` (source lines 528–537): the triple
(CREATE_KALI, CREATE_DOCS, CREATE_TAILS). Under `--all`, documents are
always enabled and the tails flag decides between Tails and Kali. -/
def computeModes (a : Args) : Bool × Bool × Bool :=
  if a.all then
    if a.tails then (false, true, true) else (true, true, false)
  else
    (a.kali, a.docs, a.tails)

/-- Which partition-table setup `setup_usb` dispatches to. -/
inductive TableSetup
  | kaliFix
  | tailsFix
  | docsOnly
  | noneSelected
deriving DecidableEq

/-- Dispatch of `setup_usb` (source lines 137–166): with a boot image
requested, CREATE_KALI wins over CREATE_TAILS in both the ISO selection
and the table fix. -/
def setup_usb_choice (createKali createTails createDocs : Bool) :
    TableSetup :=
  if createKali || createTails then
    if createKali then TableSetup.kaliFix else TableSetup.tailsFix
  else if createDocs then TableSetup.docsOnly
  else TableSetup.noneSelected

/-- Which global the `--iso` path is assigned to (source lines 539–543). -/
inductive IsoTarget
  | kaliIso
  | tailsIso
  | unused
deriving DecidableEq

/-- Assignment of the `--iso` argument in `main`. -/
def isoAssignment (createKali createTails : Bool) : IsoTarget :=
  if createKali then IsoTarget.kaliIso
  else if createTails then IsoTarget.tailsIso
  else IsoTarget.unused

attribute [local semireducible] Rat.add Rat.mul Rat.sub

/-- A dead run is left untouched by any step. -/
theorem stepRun_dead (exec : Action → Bool) (s : RunState) (st : Step)
    (h : s.ok = false) : stepRun exec s st = s := by
  cases st <;> simp [stepRun, h]

/-- A dead run is left untouched by any list of steps. -/
theorem runStepsFrom_dead (exec : Action → Bool) :
    ∀ (steps : List Step) (s : RunState), s.ok = false →
      runStepsFrom exec s steps = s := by
  intro steps
  induction steps with
  | nil => intro s _; rfl
  | cons st rest ih =>
    intro s h
    show runStepsFrom exec (stepRun exec s st) rest = s
    rw [stepRun_dead exec s st h]
    exact ih s h

/-- A step cannot resurrect a dead run. -/
theorem stepRun_ok (exec : Action → Bool) (s : RunState) (st : Step)
    (h : (stepRun exec s st).ok = true) : s.ok = true := by
  by_contra hs
  rw [stepRun_dead exec s st (Bool.not_eq_true _ ▸ hs)] at h
  exact hs h

/-- A list of steps cannot resurrect a dead run. -/
theorem runStepsFrom_ok (exec : Action → Bool) (steps : List Step)
    (s : RunState) (h : (runStepsFrom exec s steps).ok = true) :
    s.ok = true := by
  by_contra hs
  rw [runStepsFrom_dead exec steps s (Bool.not_eq_true _ ▸ hs)] at h
  exact hs h

/-- A run that ends alive attempted exactly the actions of its steps, in
order. -/
theorem runStepsFrom_trace_of_ok (exec : Action → Bool) :
    ∀ (steps : List Step) (s : RunState),
      (runStepsFrom exec s steps).ok = true →
      (runStepsFrom exec s steps).trace = s.trace ++ actionsOf steps := by
  intro steps
  induction steps with
  | nil => intro s _; simp [runStepsFrom, actionsOf]
  | cons st rest ih =>
    intro s h
    have hstep : runStepsFrom exec s (st :: rest) =
        runStepsFrom exec (stepRun exec s st) rest := rfl
    rw [hstep] at h ⊢
    have hs : s.ok = true := stepRun_ok exec s st (runStepsFrom_ok exec rest _ h)
    have htr := ih (stepRun exec s st) h
    cases st with
    | cmd a =>
      rw [htr]; simp [stepRun, hs, actionsOf]
    | tryCmd a =>
      rw [htr]; simp [stepRun, hs, actionsOf]
    | guard b =>
      rw [htr]; simp [stepRun, hs, actionsOf]

/-- Every action of a trace is either the tolerated stale-delete or a
command the oracle let succeed. -/
def execClean (exec : Action → Bool) (l : List Action) : Prop :=
  ∀ a ∈ l, a = Action.partedRm2 ∨ exec a = true

/-- Abort-discipline invariant: all attempted actions but possibly the
last succeeded (or were the tolerated stale-delete), and if the run is
still alive even the last one did. -/
def runInv (exec : Action → Bool) (s : RunState) : Prop :=
  execClean exec s.trace.dropLast ∧ (s.ok = true → execClean exec s.trace)

/-- One step preserves the abort-discipline invariant, provided the only
`try`-protected command is the stale partition-2 delete. -/
theorem stepRun_inv (exec : Action → Bool) (s : RunState) (st : Step)
    (hinv : runInv exec s)
    (htry : ∀ a, st = Step.tryCmd a → a = Action.partedRm2) :
    runInv exec (stepRun exec s st) := by
  by_cases hs : s.ok
  · cases st with
    | cmd a =>
      refine ⟨?_, ?_⟩
      · show execClean exec ((if s.ok then
          (⟨s.trace ++ [a], exec a⟩ : RunState) else s).trace.dropLast)
        rw [if_pos hs]
        simpa [List.dropLast_concat] using hinv.2 hs
      · intro hok
        simp only [stepRun, if_pos hs] at hok ⊢
        intro b hb
        rcases List.mem_append.mp hb with hb | hb
        · exact hinv.2 hs b hb
        · right
          rw [List.mem_singleton.mp hb]
          exact hok
    | tryCmd a =>
      have ha : a = Action.partedRm2 := htry a rfl
      refine ⟨?_, ?_⟩
      · show execClean exec ((if s.ok then
          (⟨s.trace ++ [a], true⟩ : RunState) else s).trace.dropLast)
        rw [if_pos hs]
        simpa [List.dropLast_concat] using hinv.2 hs
      · intro _
        simp only [stepRun, if_pos hs]
        intro b hb
        rcases List.mem_append.mp hb with hb | hb
        · exact hinv.2 hs b hb
        · left
          rw [List.mem_singleton.mp hb, ha]
    | guard b =>
      refine ⟨?_, ?_⟩
      · show execClean exec ((if s.ok then
          (⟨s.trace, b⟩ : RunState) else s).trace.dropLast)
        rw [if_pos hs]
        exact hinv.1
      · intro _
        simp only [stepRun, if_pos hs]
        exact hinv.2 hs
  · rw [stepRun_dead exec s st (Bool.not_eq_true _ ▸ hs)]
    exact hinv

/-- A list of steps preserves the abort-discipline invariant, provided
every `try`-protected command in it is the stale partition-2 delete. -/
theorem runStepsFrom_inv (exec : Action → Bool) :
    ∀ (steps : List Step) (s : RunState), runInv exec s →
      (∀ a, Step.tryCmd a ∈ steps → a = Action.partedRm2) →
      runInv exec (runStepsFrom exec s steps) := by
  intro steps
  induction steps with
  | nil => intro s hinv _; exact hinv
  | cons st rest ih =>
    intro s hinv htry
    show runInv exec (runStepsFrom exec (stepRun exec s st) rest)
    refine ih (stepRun exec s st) ?_ ?_
    · exact stepRun_inv exec s st hinv
        (fun a ha => htry a (ha ▸ List.mem_cons_self st rest))
    · exact fun a ha => htry a (List.mem_cons_of_mem st ha)

/-- From the abort-discipline invariant: a failing command that is not the
tolerated stale-delete is the last action ever attempted, and the run is
dead afterwards. -/
theorem failing_action_last (exec : Action → Bool) (s : RunState)
    (hinv : runInv exec s) (t₁ : List Action) (a : Action)
    (t₂ : List Action) (htrace : s.trace = t₁ ++ a :: t₂)
    (hfail : exec a = false) (hrm : a ≠ Action.partedRm2) :
    t₂ = [] ∧ s.ok = false := by
  constructor
  · cases t₂ with
    | nil => rfl
    | cons c t₂' =>
      exfalso
      have hmem : a ∈ s.trace.dropLast := by
        rw [htrace, List.dropLast_append_cons, List.dropLast_cons₂]
        exact List.mem_append_right _ (List.mem_cons_self a _)
      rcases hinv.1 a hmem with h | h
      · exact hrm h
      · rw [hfail] at h; cases h
  · by_contra hok
    have hok' : s.ok = true := by
      cases hone : s.ok
      · exact absurd hone hok
      · rfl
    have hmem : a ∈ s.trace := by
      rw [htrace]; exact List.mem_append_right _ (List.mem_cons_self a _)
    rcases hinv.2 hok' a hmem with h | h
    · exact hrm h
    · rw [hfail] at h; cases h

/-- The block-level provisioner contains no `try`-protected command. -/
theorem noTry_kali (fast : Bool) (part : String) (pe : String → Bool) :
    ∀ a, Step.tryCmd a ∉ setup_kali_partition_steps fast part pe := by
  intro a ha
  simp [setup_kali_partition_steps] at ha

/-- The container provisioner contains no `try`-protected command. -/
theorem noTry_docs (fast : Bool) (part : String) (pe : String → Bool) :
    ∀ a, Step.tryCmd a ∉ setup_docs_partition_steps fast part pe := by
  intro a ha
  simp [setup_docs_partition_steps] at ha

/-- The tools provisioner contains no `try`-protected command. -/
theorem noTry_unenc (part : String) (pe : String → Bool) :
    ∀ a, Step.tryCmd a ∉ setup_unencrypted_partition_steps part pe := by
  intro a ha
  simp [setup_unencrypted_partition_steps] at ha

/-- The tail of `fix_partition_table` contains no `try`-protected
command. -/
theorem noTry_tail (drive : String) (startDocs endDocs : ℚ)
    (createDocs fast : Bool) (listing : List String) (pe : String → Bool) :
    ∀ a, Step.tryCmd a ∉
      fix_partition_table_tail drive startDocs endDocs createDocs fast
        listing pe := by
  intro a ha
  unfold fix_partition_table_tail at ha
  cases hgl : get_last_partition_number drive listing <;>
    rw [hgl] at ha <;>
    cases createDocs <;>
    simp_all [setup_kali_partition_steps, setup_docs_partition_steps,
      setup_unencrypted_partition_steps]

/-- Everything after the stale-delete attempt in `fix_partition_table`
contains no `try`-protected command. -/
theorem noTry_rest (drive : String) (total : ℚ) (bootEnd : Option ℚ)
    (persIn docsIn : SizeInput) (createDocs fast : Bool)
    (listing : List String) (pe : String → Bool) :
    ∀ a, Step.tryCmd a ∉
      fix_partition_table_rest drive total bootEnd persIn docsIn createDocs
        fast listing pe := by
  intro a ha
  unfold fix_partition_table_rest at ha
  cases bootEnd with
  | none => simp at ha
  | some endOfP1 =>
    cases hp : parsePersSize persIn with
    | none => rw [hp] at ha; simp at ha
    | some persGb =>
      rw [hp] at ha
      simp only [] at ha
      by_cases h1 : endOfP1 + persGb * 1024 > total
      · rw [if_pos h1] at ha; simp at ha
      · rw [if_neg h1] at ha
        rcases List.mem_cons.mp ha with hc | ha'
        · cases hc
        · cases docsIn with
          | nonNumeric => simp at ha'
          | blank =>
            exact noTry_tail drive (endOfP1 + persGb * 1024) (total - 1024)
              createDocs fast listing pe a ha'
          | num docsGb =>
            have ha'' : Step.tryCmd a ∈
                (if endOfP1 + persGb * 1024 + docsGb * 1024 > total - 1024
                 then [Step.guard false]
                 else
                   fix_partition_table_tail drive (endOfP1 + persGb * 1024)
                     (endOfP1 + persGb * 1024 + docsGb * 1024) createDocs
                     fast listing pe) := ha'
            by_cases h2 :
                endOfP1 + persGb * 1024 + docsGb * 1024 > total - 1024
            · rw [if_pos h2] at ha''; simp at ha''
            · rw [if_neg h2] at ha''
              exact noTry_tail drive (endOfP1 + persGb * 1024)
                (endOfP1 + persGb * 1024 + docsGb * 1024) createDocs fast
                listing pe a ha''

/-- The only `try`-protected command of `fix_partition_table` is the
stale partition-2 delete. -/
theorem onlyTry_fix_steps (drive : String) (total : ℚ)
    (bootEnd : Option ℚ) (persIn docsIn : SizeInput)
    (createDocs fast : Bool) (listing : List String)
    (pe : String → Bool) :
    ∀ a, Step.tryCmd a ∈
        fix_partition_table_steps drive total bootEnd persIn docsIn
          createDocs fast listing pe →
      a = Action.partedRm2 := by
  intro a ha
  rcases List.mem_cons.mp ha with h | h
  · injection h
  · exact absurd h
      (noTry_rest drive total bootEnd persIn docsIn createDocs fast listing
        pe a)

/-- The abort-discipline invariant holds of every complete
`fix_partition_table` run. -/
theorem fix_run_inv (exec : Action → Bool) (drive : String) (total : ℚ)
    (bootEnd : Option ℚ) (persIn docsIn : SizeInput)
    (createDocs fast : Bool) (listing : List String)
    (pe : String → Bool) :
    runInv exec
      (fix_partition_table_run exec drive total bootEnd persIn docsIn
        createDocs fast listing pe) := by
  refine runStepsFrom_inv exec _ ⟨[], true⟩ ?_ ?_
  · exact ⟨fun a ha => absurd ha (List.not_mem_nil a),
      fun _ a ha => absurd ha (List.not_mem_nil a)⟩
  · exact onlyTry_fix_steps drive total bootEnd persIn docsIn createDocs
      fast listing pe

/-- Outcome oracle under which every external command succeeds. -/
def execAll : Action → Bool := fun _ => true

/-- Outcome oracle under which exactly the stale partition-2 delete
returns a non-zero status. -/
def execFailRm2 : Action → Bool := fun a => !(a == Action.partedRm2)

/-- Outcome oracle under which exactly the partition-creation commands
return a non-zero status. -/
def execFailCreate : Action → Bool := fun a => !isTableCreation a

/-- Outcome oracle under which exactly the copy of the README onto the
tools partition returns a non-zero status. -/
def execFailCpReadme : Action → Bool := fun a => !(a == Action.cpReadme)

/-- Existence oracle under which every device node is present. -/
def allPaths : String → Bool := fun _ => true

/-- Existence oracle under which no device node is present. -/
def noPaths : String → Bool := fun _ => false

/-- C1 counterexample: on a 16000 MiB device with the boot partition
ending at 3000 MiB, a requested persistence size of 12 GB passes the
code's only persistence check (15288 ≤ 16000), and with the documents
size left blank the planner returns the extents
[3000, 15288], [15288, 14976], [14976, 16000] — the documents extent runs
backwards and overlaps the persistence extent, so the output is not
strictly increasing even though the input was accepted. -/
theorem c1_counterexample :
    fix_partition_table_plan 16000 3000 (SizeInput.num 12) SizeInput.blank =
      Except.ok [⟨3000, 15288⟩, ⟨15288, 14976⟩, ⟨14976, 16000⟩] ∧
    planWellFormed [⟨(3000 : ℚ), 15288⟩, ⟨15288, 14976⟩, ⟨14976, 16000⟩]
      16000 = false :=
  ⟨by decide, by decide⟩

/-- C1 (amended): whenever the planner accepts the input, the requested
sizes are positive, and — when the documents size is omitted — the
persistence extent ends strictly below `total − 1024`, the returned
extents are chained (each start equals the previous end), strictly
increasing, end within the device, and are pairwise non-overlapping. -/
theorem c1_layout_plan_well_formed (total bootEnd persGb : ℚ)
    (persIn docsIn : SizeInput) (l : List Extent)
    (hpers : parsePersSize persIn = some persGb)
    (hpos : 0 < persGb)
    (hdocs : ∀ d, docsIn = SizeInput.num d → 0 < d)
    (hblank : docsIn = SizeInput.blank →
      bootEnd + persGb * 1024 < total - 1024)
    (hok : fix_partition_table_plan total bootEnd persIn docsIn =
      Except.ok l) :
    planWellFormed l total = true ∧
    List.Pairwise (fun e₁ e₂ => e₁.stop ≤ e₂.start) l := by
  have hm : (0 : ℚ) < persGb * 1024 := by
    have h1024 : (0 : ℚ) < 1024 := by norm_num
    exact mul_pos hpos h1024
  unfold fix_partition_table_plan at hok
  split at hok
  · exact absurd hok (by simp)
  · rename_i pg hpg
    rw [hpers] at hpg
    injection hpg with hpg'
    subst hpg'
    split at hok
    · simp only [] at hok
      split at hok <;> exact absurd hok (by simp)
    · rename_i docsGb
      have hd := hdocs docsGb rfl
      have hmd : (0 : ℚ) < docsGb * 1024 := by
        have h1024 : (0 : ℚ) < 1024 := by norm_num
        exact mul_pos hd h1024
      simp only [] at hok
      split at hok
      · exact absurd hok (by simp)
      · rename_i h1
        have h1' : bootEnd + persGb * 1024 ≤ total := le_of_not_lt h1
        split at hok
        · exact absurd hok (by simp)
        · rename_i h2
          have h2' : bootEnd + persGb * 1024 + docsGb * 1024 ≤
              total - 1024 := le_of_not_lt h2
          injection hok with hl
          subst hl
          constructor
          · simp only [planWellFormed, List.all_cons, List.all_nil,
              extentsAdjacent, Bool.and_true, Bool.and_eq_true,
              decide_eq_true_eq]
            exact ⟨⟨⟨by linarith, by linarith⟩,
              ⟨by linarith, by linarith⟩, by linarith, le_refl total⟩,
              by trivial, by trivial⟩
          · simp only [List.pairwise_cons, List.mem_cons,
              List.mem_singleton, List.not_mem_nil]
            refine ⟨?_, ?_, ?_⟩
            · intro e he
              rcases he with he | he | he
              · rw [he]
              · rw [he]; dsimp only; linarith
              · exact he.elim
            · intro e he
              rcases he with he | he
              · rw [he]
              · exact he.elim
            · exact ⟨fun e he => he.elim, List.Pairwise.nil⟩
    · have hb := hblank rfl
      simp only [] at hok
      split at hok
      · exact absurd hok (by simp)
      · rename_i h1
        have h1' : bootEnd + persGb * 1024 ≤ total := le_of_not_lt h1
        injection hok with hl
        subst hl
        constructor
        · simp only [planWellFormed, List.all_cons, List.all_nil,
            extentsAdjacent, Bool.and_true, Bool.and_eq_true,
            decide_eq_true_eq]
          exact ⟨⟨⟨by linarith, by linarith⟩,
            ⟨by linarith, by linarith⟩, by linarith, le_refl total⟩,
            by trivial, by trivial⟩
        · simp only [List.pairwise_cons, List.mem_cons,
            List.mem_singleton, List.not_mem_nil]
          refine ⟨?_, ?_, ?_⟩
          · intro e he
            rcases he with he | he | he
            · rw [he]
            · rw [he]; dsimp only; linarith
            · exact he.elim
          · intro e he
            rcases he with he | he
            · rw [he]
            · exact he.elim
          · exact ⟨fun e he => he.elim, List.Pairwise.nil⟩

/-- C1 witness: the amended layout theorem applied to the worked example
of the spec. -/
theorem c1_witness :
    (0 : ℚ) < 4 ∧
    planWellFormed [⟨(3000 : ℚ), 7096⟩, ⟨7096, 14976⟩, ⟨14976, 16000⟩]
      16000 = true ∧
    List.Pairwise (fun e₁ e₂ => e₁.stop ≤ e₂.start)
      [Extent.mk (3000 : ℚ) 7096, ⟨7096, 14976⟩, ⟨14976, 16000⟩] :=
  ⟨by norm_num,
    c1_layout_plan_well_formed 16000 3000 4 (SizeInput.num 4)
      SizeInput.blank [⟨3000, 7096⟩, ⟨7096, 14976⟩, ⟨14976, 16000⟩] rfl
      (by norm_num) (fun d h => nomatch h) (fun _ => by norm_num)
      (by decide)⟩

/-- C2: on a 16000 MiB device whose boot partition ends at 3000 MiB, a
4 GB persistence request with the documents size left blank plans
persistence [3000, 7096], documents [7096, 14976] (total minus the
1024 MiB margin), and tools [14976, 16000], i.e. from 14976 MiB to the
end of the device (the source's `100%`). -/
theorem c2_example_plan :
    fix_partition_table_plan 16000 3000 (SizeInput.num 4) SizeInput.blank =
      Except.ok [⟨3000, 7096⟩, ⟨7096, 14976⟩, ⟨14976, 16000⟩] := by
  decide

/-- C5: the addressing resolver joins the index with an infix `p` exactly
when the device path contains `nvme` or `mmcblk`, and appends it directly
otherwise; in particular index 2 resolves to `/dev/nvme0n1p2` on a marker
path and to `/dev/sda2` on a non-marker path. -/
theorem c5_partition_naming (drive : String) (n : Int) :
    ((strContains drive "nvme" || strContains drive "mmcblk") = true →
      get_partition_name drive n = drive ++ "p" ++ toString n) ∧
    ((strContains drive "nvme" || strContains drive "mmcblk") = false →
      get_partition_name drive n = drive ++ toString n) ∧
    get_partition_name "/dev/nvme0n1" 2 = "/dev/nvme0n1p2" ∧
    get_partition_name "/dev/sda" 2 = "/dev/sda2" := by
  refine ⟨?_, ?_, by decide, by decide⟩
  · intro h
    simp [get_partition_name, h]
  · intro h
    simp [get_partition_name, h]

/-- C5 witness: the naming theorem applied to a concrete `mmcblk`
device. -/
theorem c5_witness :
    (strContains "/dev/mmcblk0" "nvme" ||
      strContains "/dev/mmcblk0" "mmcblk") = true ∧
    get_partition_name "/dev/mmcblk0" 7 = "/dev/mmcblk0p7" :=
  ⟨by decide, (c5_partition_naming "/dev/mmcblk0" 7).1 (by decide)⟩

/-- C6: the highest-partition-number scan returns 3 on the listing
{sda1, sda2, sda3} of `/dev/sda`, 2 on the listing {nvme0n1p1, nvme0n1p2}
of `/dev/nvme0n1`, and exits fatally (modelled as `none`) when the listing
contains no partition of the drive. -/
theorem c6_last_partition_scan :
    get_last_partition_number "/dev/sda" ["sda1", "sda2", "sda3"] =
      some 3 ∧
    get_last_partition_number "/dev/nvme0n1"
      ["nvme0n1p1", "nvme0n1p2"] = some 2 ∧
    get_last_partition_number "/dev/sda" ["sdb1", "sdb2"] = none :=
  ⟨by decide, by decide, by decide⟩

/-- C3 counterexample: with a non-numeric persistence size the run does
terminate with an error, but a partition-table mutation — the
`parted rm 2` delete of the stale region 2 — has already been issued
before the failing validation, contradicting the claim that no external
mutating call precedes it. -/
theorem c3_counterexample :
    (fix_partition_table_run execAll "/dev/sdb" 16000 (some 3000)
      SizeInput.nonNumeric SizeInput.blank true false
      ["sdb", "sdb1", "sdb2", "sdb3", "sdb4"] allPaths).ok = false ∧
    ((fix_partition_table_run execAll "/dev/sdb" 16000 (some 3000)
      SizeInput.nonNumeric SizeInput.blank true false
      ["sdb", "sdb1", "sdb2", "sdb3", "sdb4"] allPaths).trace.any
        isTableMutation) = true :=
  ⟨by decide, by decide⟩

/-- C3 (amended): a non-numeric or infeasible persistence size terminates
the run before any partition is created (the only prior external call is
the tolerated stale partition-2 delete), and a non-numeric or infeasible
documents size terminates the run with exactly the stale delete and the
already-issued persistence creation in the trace — before the documents
or tools partitions are created and before any provisioning command. -/
theorem c3_validation_halts_before_further_mutation
    (exec : Action → Bool) (drive : String) (total bootEnd : ℚ)
    (persIn docsIn : SizeInput) (createDocs fast : Bool)
    (listing : List String) (pe : String → Bool) :
    (persIn = SizeInput.nonNumeric →
      fix_partition_table_run exec drive total (some bootEnd) persIn docsIn
        createDocs fast listing pe = ⟨[Action.partedRm2], false⟩) ∧
    (∀ persGb, parsePersSize persIn = some persGb →
      bootEnd + persGb * 1024 > total →
      fix_partition_table_run exec drive total (some bootEnd) persIn docsIn
        createDocs fast listing pe = ⟨[Action.partedRm2], false⟩) ∧
    (∀ persGb, parsePersSize persIn = some persGb →
      ¬bootEnd + persGb * 1024 > total →
      docsIn = SizeInput.nonNumeric →
      fix_partition_table_run exec drive total (some bootEnd) persIn docsIn
        createDocs fast listing pe =
        ⟨[Action.partedRm2,
          Action.mkpart bootEnd (bootEnd + persGb * 1024)], false⟩) ∧
    (∀ persGb docsGb, parsePersSize persIn = some persGb →
      ¬bootEnd + persGb * 1024 > total →
      docsIn = SizeInput.num docsGb →
      bootEnd + persGb * 1024 + docsGb * 1024 > total - 1024 →
      fix_partition_table_run exec drive total (some bootEnd) persIn docsIn
        createDocs fast listing pe =
        ⟨[Action.partedRm2,
          Action.mkpart bootEnd (bootEnd + persGb * 1024)], false⟩) := by
  refine ⟨?_, ?_, ?_, ?_⟩
  · intro h
    subst h
    rfl
  · intro persGb hp hgt
    have hsteps : fix_partition_table_steps drive total (some bootEnd)
        persIn docsIn createDocs fast listing pe =
        [Step.tryCmd Action.partedRm2, Step.guard false] := by
      unfold fix_partition_table_steps fix_partition_table_rest
      rw [hp]
      simp only []
      rw [if_pos hgt]
    unfold fix_partition_table_run
    rw [hsteps]
    rfl
  · intro persGb hp hle hdIn
    subst hdIn
    have hsteps : fix_partition_table_steps drive total (some bootEnd)
        persIn SizeInput.nonNumeric createDocs fast listing pe =
        [Step.tryCmd Action.partedRm2,
         Step.cmd (Action.mkpart bootEnd (bootEnd + persGb * 1024)),
         Step.guard false] := by
      unfold fix_partition_table_steps fix_partition_table_rest
      rw [hp]
      simp only []
      rw [if_neg hle]
    unfold fix_partition_table_run
    rw [hsteps]
    cases hE : exec (Action.mkpart bootEnd (bootEnd + persGb * 1024)) <;>
      simp [runSteps, runStepsFrom, stepRun, List.foldl, hE]
  · intro persGb docsGb hp hle hdIn hgt2
    subst hdIn
    have hsteps : fix_partition_table_steps drive total (some bootEnd)
        persIn (SizeInput.num docsGb) createDocs fast listing pe =
        [Step.tryCmd Action.partedRm2,
         Step.cmd (Action.mkpart bootEnd (bootEnd + persGb * 1024)),
         Step.guard false] := by
      unfold fix_partition_table_steps fix_partition_table_rest
      rw [hp]
      simp only []
      rw [if_neg hle]
      rw [if_pos hgt2]
    unfold fix_partition_table_run
    rw [hsteps]
    cases hE : exec (Action.mkpart bootEnd (bootEnd + persGb * 1024)) <;>
      simp [runSteps, runStepsFrom, stepRun, List.foldl, hE]

/-- C3 witness: the amended theorem applied to a concrete run with a
non-numeric persistence size. -/
theorem c3_witness :
    fix_partition_table_run execAll "/dev/sdb" 16000 (some 3000)
      SizeInput.nonNumeric SizeInput.blank true false
      ["sdb", "sdb1", "sdb2", "sdb3", "sdb4"] allPaths =
      ⟨[Action.partedRm2], false⟩ :=
  (c3_validation_halts_before_further_mutation execAll "/dev/sdb" 16000
    3000 SizeInput.nonNumeric SizeInput.blank true false
    ["sdb", "sdb1", "sdb2", "sdb3", "sdb4"] allPaths).1 rfl

/-- C4 counterexample: under an oracle that fails exactly the stale
partition-2 delete, the delete's non-zero exit does not abort the run —
the `try/except SystemExit` swallows it, the run continues, later
partition creations are attempted, and the run even completes
successfully. -/
theorem c4_counterexample :
    execFailRm2 Action.partedRm2 = false ∧
    (fix_partition_table_run execFailRm2 "/dev/sdb" 16000 (some 3000)
      (SizeInput.num 4) SizeInput.blank true false
      ["sdb", "sdb1", "sdb2", "sdb3", "sdb4"] allPaths).trace.head? =
      some Action.partedRm2 ∧
    (fix_partition_table_run execFailRm2 "/dev/sdb" 16000 (some 3000)
      (SizeInput.num 4) SizeInput.blank true false
      ["sdb", "sdb1", "sdb2", "sdb3", "sdb4"] allPaths).ok = true ∧
    ((fix_partition_table_run execFailRm2 "/dev/sdb" 16000 (some 3000)
      (SizeInput.num 4) SizeInput.blank true false
      ["sdb", "sdb1", "sdb2", "sdb3", "sdb4"] allPaths).trace.any
        isTableCreation) = true :=
  ⟨by decide, by decide, by decide, by decide⟩

/-- C4 (amended): any external command of `fix_partition_table` other
than the `try`-protected stale partition-2 delete that returns a non-zero
status is the last command the run ever attempts, and the run terminates
failed — no subsequent mutation or provisioning step is attempted. -/
theorem c4_failing_mutation_aborts (exec : Action → Bool) (drive : String)
    (total : ℚ) (bootEnd : Option ℚ) (persIn docsIn : SizeInput)
    (createDocs fast : Bool) (listing : List String) (pe : String → Bool)
    (t₁ : List Action) (a : Action) (t₂ : List Action)
    (htrace : (fix_partition_table_run exec drive total bootEnd persIn
      docsIn createDocs fast listing pe).trace = t₁ ++ a :: t₂)
    (hfail : exec a = false) (hrm : a ≠ Action.partedRm2) :
    t₂ = [] ∧
    (fix_partition_table_run exec drive total bootEnd persIn docsIn
      createDocs fast listing pe).ok = false :=
  failing_action_last exec _
    (fix_run_inv exec drive total bootEnd persIn docsIn createDocs fast
      listing pe) t₁ a t₂ htrace hfail hrm

/-- C4 witness: the amended theorem applied to a run whose first creation
command fails — it is the last attempted action and the run dies. -/
theorem c4_witness :
    ([] : List Action) = [] ∧
    (fix_partition_table_run execFailCreate "/dev/sdb" 16000 (some 3000)
      (SizeInput.num 4) SizeInput.blank true false
      ["sdb", "sdb1", "sdb2", "sdb3", "sdb4"] allPaths).ok = false :=
  c4_failing_mutation_aborts execFailCreate "/dev/sdb" 16000 (some 3000)
    (SizeInput.num 4) SizeInput.blank true false
    ["sdb", "sdb1", "sdb2", "sdb3", "sdb4"] allPaths
    [Action.partedRm2] (Action.mkpart 3000 7096) []
    (by decide) (by decide) (by decide)

/-- C7 counterexample: the block-level persistence provisioner never
consults the existence oracle — even when no device node exists, its
first action is `wipefs` against the resolved partition path, and the
run proceeds rather than terminating as a precondition failure. -/
theorem c7_counterexample :
    noPaths "/dev/sdb2" = false ∧
    (runSteps execAll
      (setup_kali_partition_steps false "/dev/sdb2" noPaths)).trace.head? =
      some (Action.wipefs "/dev/sdb2") ∧
    (runSteps execAll
      (setup_kali_partition_steps false "/dev/sdb2" noPaths)).ok = true :=
  ⟨by decide, by decide, by decide⟩

/-- C7 (amended): the documents and tools provisioners verify the
resolved path's existence before issuing any command, and absence
terminates the run fatally with an empty command trace; the block-level
persistence provisioner performs no such check (see the
counterexample). -/
theorem c7_docs_tools_check_existence (exec : Action → Bool) (fast : Bool)
    (part : String) (pe : String → Bool) (habs : pe part = false) :
    (runSteps exec (setup_docs_partition_steps fast part pe)).trace = [] ∧
    (runSteps exec (setup_docs_partition_steps fast part pe)).ok = false ∧
    (runSteps exec (setup_unencrypted_partition_steps part pe)).trace =
      [] ∧
    (runSteps exec (setup_unencrypted_partition_steps part pe)).ok =
      false := by
  have hguard : stepRun exec ⟨[], true⟩ (Step.guard (pe part)) =
      ⟨[], false⟩ := by
    simp [stepRun, habs]
  have hdocs : runSteps exec (setup_docs_partition_steps fast part pe) =
      ⟨[], false⟩ := by
    show runStepsFrom exec (stepRun exec ⟨[], true⟩ (Step.guard (pe part)))
      [Step.cmd (Action.wipefs part),
       Step.cmd (Action.veracryptCreate part fast)] = ⟨[], false⟩
    rw [hguard]
    exact runStepsFrom_dead exec _ _ rfl
  have hun : runSteps exec (setup_unencrypted_partition_steps part pe) =
      ⟨[], false⟩ := by
    show runStepsFrom exec (stepRun exec ⟨[], true⟩ (Step.guard (pe part)))
      [Step.cmd (Action.mkfsVfat part),
       Step.cmd (Action.mkdirP "/mnt/unencrypted"),
       Step.cmd (Action.mountCmd part "/mnt/unencrypted"),
       Step.cmd Action.cpReadme,
       Step.cmd Action.rmTmpReadme,
       Step.cmd Action.cpMountScript,
       Step.cmd Action.chmodMountScript,
       Step.cmd Action.rmTmpMountScript,
       Step.cmd Action.cpCleanupScript,
       Step.cmd Action.chmodCleanupScript,
       Step.cmd Action.rmTmpCleanupScript,
       Step.cmd (Action.umountCmd "/mnt/unencrypted")] = ⟨[], false⟩
    rw [hguard]
    exact runStepsFrom_dead exec _ _ rfl
  exact ⟨by rw [hdocs], by rw [hdocs], by rw [hun], by rw [hun]⟩

/-- C7 witness: the amended theorem applied to a concrete missing node. -/
theorem c7_witness :
    noPaths "/dev/sdb3" = false ∧
    ((runSteps execAll
        (setup_docs_partition_steps false "/dev/sdb3" noPaths)).trace =
      [] ∧
    (runSteps execAll
      (setup_docs_partition_steps false "/dev/sdb3" noPaths)).ok = false ∧
    (runSteps execAll
      (setup_unencrypted_partition_steps "/dev/sdb3" noPaths)).trace =
      [] ∧
    (runSteps execAll
      (setup_unencrypted_partition_steps "/dev/sdb3" noPaths)).ok =
      false) :=
  ⟨rfl, c7_docs_tools_check_existence execAll false "/dev/sdb3" noPaths rfl⟩

/-- C8: when the block-level provisioning lifecycle completes, its
command sequence is exactly the source's: the marker file written to the
mounted persistence volume has the literal content `/ union`, and it is
followed by the unmount of `/mnt/kali_USB` and then the `luksClose`
deactivation, in that order (they are the last three commands). -/
theorem c8_marker_then_unmount_then_close (exec : Action → Bool)
    (fast : Bool) (part : String) (pe : String → Bool)
    (hok : (runSteps exec
      (setup_kali_partition_steps fast part pe)).ok = true) :
    (runSteps exec (setup_kali_partition_steps fast part pe)).trace =
      [Action.wipefs part, Action.luksFormat part fast,
       Action.luksOpen part, Action.mkfsPersistence fast,
       Action.mkdirP "/mnt/kali_USB",
       Action.mountCmd "/dev/mapper/kali_USB" "/mnt/kali_USB",
       Action.teeFile "/ union" "/mnt/kali_USB/persistence.conf",
       Action.umountCmd "/mnt/kali_USB", Action.luksClose] ∧
    (runSteps exec
        (setup_kali_partition_steps fast part pe)).trace.reverse.take 3 =
      [Action.luksClose, Action.umountCmd "/mnt/kali_USB",
       Action.teeFile "/ union" "/mnt/kali_USB/persistence.conf"] := by
  have htr := runStepsFrom_trace_of_ok exec
    (setup_kali_partition_steps fast part pe) ⟨[], true⟩ hok
  have htr' : (runSteps exec
      (setup_kali_partition_steps fast part pe)).trace =
      [Action.wipefs part, Action.luksFormat part fast,
       Action.luksOpen part, Action.mkfsPersistence fast,
       Action.mkdirP "/mnt/kali_USB",
       Action.mountCmd "/dev/mapper/kali_USB" "/mnt/kali_USB",
       Action.teeFile "/ union" "/mnt/kali_USB/persistence.conf",
       Action.umountCmd "/mnt/kali_USB", Action.luksClose] := by
    simpa [setup_kali_partition_steps, actionsOf] using htr
  exact ⟨htr', by rw [htr']; rfl⟩

/-- C8 witness: a fully successful block-level provisioning run. -/
theorem c8_witness :
    (runSteps execAll
      (setup_kali_partition_steps true "/dev/sdc2" allPaths)).ok = true ∧
    ((runSteps execAll
        (setup_kali_partition_steps true "/dev/sdc2" allPaths)).trace =
      [Action.wipefs "/dev/sdc2", Action.luksFormat "/dev/sdc2" true,
       Action.luksOpen "/dev/sdc2", Action.mkfsPersistence true,
       Action.mkdirP "/mnt/kali_USB",
       Action.mountCmd "/dev/mapper/kali_USB" "/mnt/kali_USB",
       Action.teeFile "/ union" "/mnt/kali_USB/persistence.conf",
       Action.umountCmd "/mnt/kali_USB", Action.luksClose] ∧
    (runSteps execAll
        (setup_kali_partition_steps true "/dev/sdc2"
          allPaths)).trace.reverse.take 3 =
      [Action.luksClose, Action.umountCmd "/mnt/kali_USB",
       Action.teeFile "/ union" "/mnt/kali_USB/persistence.conf"]) :=
  ⟨rfl, c8_marker_then_unmount_then_close execAll true "/dev/sdc2" allPaths
    rfl⟩

/-- C9 counterexample: when the copy of the README onto the mounted tools
partition fails, the run terminates (run_command calls sys.exit) with the
mount still in the trace and no unmount ever issued — the filesystem is
left mounted on this exit path. -/
theorem c9_counterexample :
    execFailCpReadme Action.cpReadme = false ∧
    (runSteps execFailCpReadme
      (setup_unencrypted_partition_steps "/dev/sdb4" allPaths)).ok =
      false ∧
    Action.mountCmd "/dev/sdb4" "/mnt/unencrypted" ∈
      (runSteps execFailCpReadme
        (setup_unencrypted_partition_steps "/dev/sdb4" allPaths)).trace ∧
    Action.umountCmd "/mnt/unencrypted" ∉
      (runSteps execFailCpReadme
        (setup_unencrypted_partition_steps "/dev/sdb4" allPaths)).trace :=
  ⟨by decide, by decide, by decide, by decide⟩

/-- C9 (amended): the tools provisioner unmounts the filesystem as its
final command on the successful exit path, after the mount and all
artifact writes; on a failure between the mount and the final write the
process terminates without unmounting (see the counterexample), in line
with the tool's global fail-fast error semantics. -/
theorem c9_unmount_last_on_success (exec : Action → Bool) (part : String)
    (pe : String → Bool)
    (hok : (runSteps exec
      (setup_unencrypted_partition_steps part pe)).ok = true) :
    (runSteps exec (setup_unencrypted_partition_steps part pe)).trace =
      [Action.mkfsVfat part, Action.mkdirP "/mnt/unencrypted",
       Action.mountCmd part "/mnt/unencrypted", Action.cpReadme,
       Action.rmTmpReadme, Action.cpMountScript, Action.chmodMountScript,
       Action.rmTmpMountScript, Action.cpCleanupScript,
       Action.chmodCleanupScript, Action.rmTmpCleanupScript,
       Action.umountCmd "/mnt/unencrypted"] ∧
    (runSteps exec
        (setup_unencrypted_partition_steps part pe)).trace.getLast? =
      some (Action.umountCmd "/mnt/unencrypted") := by
  have htr := runStepsFrom_trace_of_ok exec
    (setup_unencrypted_partition_steps part pe) ⟨[], true⟩ hok
  have htr' : (runSteps exec
      (setup_unencrypted_partition_steps part pe)).trace =
      [Action.mkfsVfat part, Action.mkdirP "/mnt/unencrypted",
       Action.mountCmd part "/mnt/unencrypted", Action.cpReadme,
       Action.rmTmpReadme, Action.cpMountScript, Action.chmodMountScript,
       Action.rmTmpMountScript, Action.cpCleanupScript,
       Action.chmodCleanupScript, Action.rmTmpCleanupScript,
       Action.umountCmd "/mnt/unencrypted"] := by
    simpa [setup_unencrypted_partition_steps, actionsOf] using htr
  exact ⟨htr', by rw [htr']; rfl⟩

/-- C9 witness: a fully successful tools-partition provisioning run. -/
theorem c9_witness :
    (runSteps execAll
      (setup_unencrypted_partition_steps "/dev/sdb4" allPaths)).ok =
      true ∧
    ((runSteps execAll
        (setup_unencrypted_partition_steps "/dev/sdb4" allPaths)).trace =
      [Action.mkfsVfat "/dev/sdb4", Action.mkdirP "/mnt/unencrypted",
       Action.mountCmd "/dev/sdb4" "/mnt/unencrypted", Action.cpReadme,
       Action.rmTmpReadme, Action.cpMountScript, Action.chmodMountScript,
       Action.rmTmpMountScript, Action.cpCleanupScript,
       Action.chmodCleanupScript, Action.rmTmpCleanupScript,
       Action.umountCmd "/mnt/unencrypted"] ∧
    (runSteps execAll
        (setup_unencrypted_partition_steps "/dev/sdb4"
          allPaths)).trace.getLast? =
      some (Action.umountCmd "/mnt/unencrypted")) :=
  ⟨rfl, c9_unmount_last_on_success execAll "/dev/sdb4" allPaths rfl⟩

/-- C10 counterexample: invoking the tool with the all, kali and tails
flags together resolves the modes to CREATE_KALI = false,
CREATE_TAILS = true; `setup_usb` dispatches to the Tails table setup, not
the Kali fix, and the supplied image path is assigned to the Tails image
— the run does not take the Kali path. -/
theorem c10_counterexample :
    computeModes ⟨true, true, false, true⟩ = (false, true, true) ∧
    setup_usb_choice false true true = TableSetup.tailsFix ∧
    TableSetup.tailsFix ≠ TableSetup.kaliFix ∧
    isoAssignment false true = IsoTarget.tailsIso :=
  ⟨rfl, rfl, by decide, rfl⟩

/-- C10 (amended): without the all flag, supplying both the kali and
tails flags takes the Kali path exclusively — CREATE_KALI is set, the
Kali partition-table fix is dispatched, and the image path is treated as
the Kali image; with the all flag the tails flag takes precedence and the
Tails table setup is dispatched instead. -/
theorem c10_mode_dispatch (a : Args) :
    (a.all = false → a.kali = true → a.tails = true →
      computeModes a = (true, a.docs, true) ∧
      setup_usb_choice (computeModes a).1 (computeModes a).2.2
        (computeModes a).2.1 = TableSetup.kaliFix ∧
      isoAssignment (computeModes a).1 (computeModes a).2.2 =
        IsoTarget.kaliIso) ∧
    (a.all = true → a.tails = true →
      computeModes a = (false, true, true) ∧
      setup_usb_choice (computeModes a).1 (computeModes a).2.2
        (computeModes a).2.1 = TableSetup.tailsFix ∧
      isoAssignment (computeModes a).1 (computeModes a).2.2 =
        IsoTarget.tailsIso) := by
  rcases a with ⟨all, kali, docs, tails⟩
  constructor
  · intro h1 h2 h3
    subst h1; subst h2; subst h3
    exact ⟨rfl, rfl, rfl⟩
  · intro h1 h2
    subst h1; subst h2
    exact ⟨rfl, rfl, rfl⟩

/-- C10 witness: both flags without all dispatches to the Kali fix. -/
theorem c10_witness :
    (Args.mk false true false true).all = false ∧
    (computeModes ⟨false, true, false, true⟩ = (true, false, true) ∧
    setup_usb_choice (computeModes ⟨false, true, false, true⟩).1
      (computeModes ⟨false, true, false, true⟩).2.2
      (computeModes ⟨false, true, false, true⟩).2.1 =
      TableSetup.kaliFix ∧
    isoAssignment (computeModes ⟨false, true, false, true⟩).1
      (computeModes ⟨false, true, false, true⟩).2.2 =
      IsoTarget.kaliIso) :=
  ⟨rfl, (c10_mode_dispatch ⟨false, true, false, true⟩).1 rfl rfl rfl⟩

end CovertSd
